import Mathlib

/-!
Verification of the chirped contra-directional coupler model
(`ChirpedContraDC_v4.py`) against its natural-language specification.

The Python source is shallowly embedded over exact rationals: numpy arrays
become `List ℚ`, complex numbers become pairs `ℚ × ℚ`, Python exceptions
become `Except PyErr`, and the transcendental library functions `np.exp`,
`np.tanh` and `np.angle` — external library calls whose exact values never
decide any claim below — are passed in as function parameters.
-/

namespace ContraDC

/-- Round-half-to-even on exact rationals: the semantics of the Python
built-in `round` and of `np.round` with 0 decimals. -/
def rhe (q : ℚ) : ℤ :=
  let f := ⌊q⌋
  let r := q - f
  if r < 1/2 then f
  else if 1/2 < r then f + 1
  else if f % 2 = 0 then f else f + 1

/-- Model of `np.round(x, 15)`: round to 15 decimal places, ties to even. -/
def round15 (q : ℚ) : ℚ := (rhe (q * 10^15) : ℚ) / 10^15

/-- Model of `np.round(x, 9)`: round to 9 decimal places, ties to even. -/
def round9 (q : ℚ) : ℚ := (rhe (q * 10^9) : ℚ) / 10^9

/-- Model of `np.linspace(a, b, n)`: `n` evenly spaced samples from `a` to `b`
inclusive (`[a]` for `n = 1`, `[]` for `n = 0`). -/
def linspaceQ (a b : ℚ) (n : ℕ) : List ℚ :=
  if n = 0 then []
  else if n = 1 then [a]
  else (List.range n).map (fun (i : ℕ) => a + (b - a) * (i : ℚ) / ((n : ℚ) - 1))

/-- Model of `np.arange(start, stop, step)` for `step > 0`: the values
`start + i*step` for `i < ⌈(stop - start)/step⌉`. -/
def arangeQ (start stop step : ℚ) : List ℚ :=
  (List.range (Int.toNat ⌈(stop - start) / step⌉)).map
    (fun (i : ℕ) => start + step * (i : ℚ))

/-- Model of `np.diff`: successive differences `a[i+1] - a[i]`. -/
def diffQ (l : List ℚ) : List ℚ :=
  (l.zip l.tail).map (fun p => p.2 - p.1)

/-- The Python `min` over a numpy array (0 on the empty array, where numpy
would raise; every use below is guarded by nonemptiness). -/
def listMinQ : List ℚ → ℚ
  | [] => 0
  | x :: t => t.foldr min x

/-- The Python `max` over a numpy array (0 on the empty array). -/
def listMaxQ : List ℚ → ℚ
  | [] => 0
  | x :: t => t.foldr max x

/-- Model of `arr[0] = v` on a numpy array. -/
def setFirstQ (l : List ℚ) (v : ℚ) : List ℚ :=
  match l with
  | [] => []
  | _ :: t => v :: t

/-- Model of `arr[-1] = v` on a numpy array. -/
def setLastQ (l : List ℚ) (v : ℚ) : List ℚ :=
  match l with
  | [] => []
  | [_] => [v]
  | x :: y :: t => x :: setLastQ (y :: t) v

/-- Model of `np.interp(x, xp, fp)` on the paired list `xp.zip fp`: clamped
piecewise-linear interpolation, `xp` assumed increasing. -/
def interpSeg (x : ℚ) : List (ℚ × ℚ) → ℚ
  | [] => 0
  | [p] => p.2
  | p :: q :: rest =>
    if x ≤ p.1 then p.2
    else if x ≤ q.1 then p.2 + (q.2 - p.2) * (x - p.1) / (q.1 - p.1)
    else interpSeg x (q :: rest)

/-! ## ProfileBuilder: apodization profiles (source lines 249-287) -/

/-- Model of `getApodProfile`, `"gaussian"` branch (source lines 250-277).
`expFn` stands for `np.exp`; `a = 0` yields the uniform profile
(line 258-259), otherwise the Gaussian window is normalized to `[0,1]`,
resampled with `np.interp`, scaled by `kappa`, and the first and last
samples are forced to `0` (lines 262-277). -/
def apodGaussianList (expFn : ℚ → ℚ) (a kappa : ℚ) (nseg : ℕ) : List ℚ :=
  if a = 0 then List.replicate nseg kappa
  else
    let n_apod : List ℚ := (List.range nseg).map (fun (i : ℕ) => (i : ℚ) + 1/2)
    let raw := n_apod.map (fun n => expFn (-a * (n - (1/2) * nseg)^2 / nseg^2))
    let mn := listMinQ raw
    let mx := listMaxQ raw
    let profile := raw.map (fun x => (x - mn) / (mx - mn))
    let n_profile := linspaceQ 0 nseg nseg
    let interpolated := n_apod.map (fun x => interpSeg x (n_profile.zip profile))
    let kappa_apod := interpolated.map (fun t => 0 + (kappa - 0) * t)
    setLastQ (setFirstQ kappa_apod 0) 0

/-- Model of `getApodProfile`, `"tanh"` branch (source lines 279-287).
`tanhFn` stands for `np.tanh`; with `alpha, beta = 2, 3`, the first
`⌊N_seg/2⌋` window samples are mirrored and scaled by `kappa`. -/
def apodTanhList (tanhFn : ℚ → ℚ) (kappa : ℚ) (nseg : ℕ) : List ℚ :=
  let apod := (List.range nseg).map
    (fun (z : ℕ) => 1/2 * (1 + tanhFn (3 * (1 - 2 * |2 * (z : ℚ) / nseg| ^ 2))))
  let half := apod.take (nseg / 2)
  (half.reverse ++ half).map (fun x => x * kappa)

/-! ## ProfileBuilder: chirp profiles without a target wavelength
(source lines 430-456) -/

/-- The width chirp profile (source lines 446-456): linear interpolation
between the first and last configured widths, snapped to the
`w_chirp_step` grid by `np.round(x/step)*step`, then `np.round(·, 15)`. -/
def wProfileList (w : List ℚ) (wstep : ℚ) (nseg : ℕ) : List ℚ :=
  ((linspaceQ (w.headD 0) (w.getLastD 0) nseg).map
    (fun x => (rhe (x / wstep) : ℚ) * wstep)).map round15

/-- The period chirp profile (source lines 434-443): the valid-period grid
`arange(period[0], period[-1] + step/100, step)`, each entry repeated
`round(N_seg/len(grid))` times, padded with the last grid value up to
`N_seg`, rounded to 15 decimals and truncated to `N_seg + 1` entries.
Faithful only where the grid is nonempty (nondecreasing period endpoints
and positive step): on an empty grid, line 439 of the source divides by
`np.size(valid_periods) = 0` and raises `ZeroDivisionError`, whereas the
rational division convention below yields a zero-filled list; every
theorem about this definition therefore assumes `0 < pstep` and
`period[0] ≤ period[-1]`. -/
def periodProfileList (p : List ℚ) (pstep : ℚ) (nseg : ℕ) : List ℚ :=
  let valid := arangeQ (p.headD 0) (p.getLastD 0 + pstep / 100) pstep
  let rep := (rhe ((nseg : ℚ) / (valid.length : ℚ))).toNat
  let rep0 := (valid.map (fun x => List.replicate rep x)).flatten
  let padded := rep0 ++ List.replicate (nseg - rep0.length) (valid.getLastD 0)
  (padded.map round15).take (nseg + 1)

/-! ## Device state (source lines 35-73)

The `ChirpedContraDC` instance attributes relevant to the claims.  The
`period`, `w1` and `w2` attributes may hold a Python float or a list; the
source converts floats to one-element lists on first use (lines 435-436,
446-447, 452-453), so they are modelled as lists, with a scalar
represented by the corresponding singleton.  The profile attributes start
as `None` (lines 66-70), modelled by `Option`. -/

/-- The apodization shapes the source dispatches on (lines 250 and 279). -/
inductive ApodShape
  | gaussian
  | tanhShape
deriving DecidableEq

/-- Python exceptions that the modelled code paths can raise. -/
inductive PyErr
  | keyError        -- dict lookup with an absent key
  | attributeError  -- assigning a read-only property / missing attribute
  | indexError      -- indexing an empty array
  | linAlgError     -- numpy.linalg.LinAlgError("Singular matrix")
deriving DecidableEq

structure Device where
  N : ℕ
  period : List ℚ
  a : ℚ
  apod_shape : ApodShape
  kappa : ℚ
  T : ℚ
  resolution : ℕ
  N_seg : ℕ
  alpha : ℚ
  stages : ℕ
  wvl_range : ℚ × ℚ
  w1 : List ℚ
  w2 : List ℚ
  target_wvl : Option (ℚ × ℚ)
  w_chirp_step : ℚ
  period_chirp_step : ℚ
  apod_profile : Option (List ℚ)
  period_profile : Option (List ℚ)
  w1_profile : Option (List ℚ)
  w2_profile : Option (List ℚ)
  beta1_profile : Option (List (List ℚ))
  beta2_profile : Option (List (List ℚ))
  E_drop : Option (List (ℚ × ℚ))
  group_delay : Option (List ℚ)
  is_simulated : Bool
deriving DecidableEq

/-- The constructor defaults (source lines 35-73). -/
def defaultDevice : Device where
  N := 1000
  period := [322/10^9]
  a := 12
  apod_shape := .gaussian
  kappa := 48000
  T := 300
  resolution := 300
  N_seg := 50
  alpha := 10
  stages := 1
  wvl_range := (1530/10^9, 1580/10^9)
  w1 := [56/10^8]
  w2 := [44/10^8]
  target_wvl := none
  w_chirp_step := 1/10^9
  period_chirp_step := 2/10^9
  apod_profile := none
  period_profile := none
  w1_profile := none
  w2_profile := none
  beta1_profile := none
  beta2_profile := none
  E_drop := none
  group_delay := none
  is_simulated := false

/-- Model of `getApodProfile` (source lines 249-287) as a state transformer:
stores the profile for the branch matching `apod_shape`. -/
def getApodProfileD (expFn tanhFn : ℚ → ℚ) (d : Device) : Device :=
  match d.apod_shape with
  | .gaussian =>
      { d with apod_profile := some (apodGaussianList expFn d.a d.kappa d.N_seg) }
  | .tanhShape =>
      { d with apod_profile := some (apodTanhList tanhFn d.kappa d.N_seg) }

/-- Model of `getChirpProfile` (source lines 430-456) for `target_wvl is None`:
stores all three chirp profiles. -/
def getChirpProfileNoTargetD (d : Device) : Device :=
  { d with
    period_profile := some (periodProfileList d.period d.period_chirp_step d.N_seg)
    w1_profile := some (wProfileList d.w1 d.w_chirp_step d.N_seg)
    w2_profile := some (wProfileList d.w2 d.w_chirp_step d.N_seg) }

/-- The profile phase of `simulate` (source lines 678-684): the
apodization profile is rebuilt only when `apod_profile is None` and the
chirp profiles only when `w1_profile is None`; no validation of any kind
is performed first.  The `target_wvl` chirp-optimization branch
(line 459) involves the on-disk profile cache and `optimizeParams`
(modelled separately as `optimizeParamsM`) and is left unmodelled: the
result is `none` for it. -/
def simulateProfileStep (expFn tanhFn : ℚ → ℚ) (d : Device) : Option Device :=
  let d1 := if d.apod_profile = none then getApodProfileD expFn tanhFn d else d
  if d1.w1_profile = none then
    match d1.target_wvl with
    | none => some (getChirpProfileNoTargetD d1)
    | some _ => none
  else some d1

/-! ## CascadeCombiner: profile reversal (source lines 603-606) -/

/-- Model of `np.flip` on a two-dimensional array: both axes are reversed. -/
def flip2 (m : List (List ℚ)) : List (List ℚ) :=
  (m.map List.reverse).reverse

/-- Model of `flipProfiles` (source lines 603-606): reverses `beta1_profile`,
`beta2_profile` (2-D, both axes) and `period_profile` (1-D). -/
def flipProfiles (d : Device) : Device :=
  { d with
    beta1_profile := d.beta1_profile.map flip2
    beta2_profile := d.beta2_profile.map flip2
    period_profile := d.period_profile.map List.reverse }

/-! ## TransferMatrixEngine: the port-reordering transform `switchTop`
(source lines 145-157)

Complex numbers are modelled as pairs of rationals, 2×2 complex matrices
as four-entry structures.  `switchTop` receives the cascaded 4×4 matrix
already partitioned into its four 2×2 blocks, exactly as lines 146-149
partition `P` into `P_FF`, `P_FG`, `P_GF`, `P_GG`. -/

/-- A complex number as (real part, imaginary part). -/
abbrev CQ := ℚ × ℚ

def czero : CQ := (0, 0)

def cadd (x y : CQ) : CQ := (x.1 + y.1, x.2 + y.2)

def csub (x y : CQ) : CQ := (x.1 - y.1, x.2 - y.2)

def cneg (x : CQ) : CQ := (-x.1, -x.2)

def cmul (x y : CQ) : CQ := (x.1 * y.1 - x.2 * y.2, x.1 * y.2 + x.2 * y.1)

/-- Complex division (total: division by `czero` yields `czero`). -/
def cdiv (x y : CQ) : CQ :=
  let d := y.1^2 + y.2^2
  ((x.1 * y.1 + x.2 * y.2) / d, (x.2 * y.1 - x.1 * y.2) / d)

/-- A 2×2 complex matrix. -/
structure Mat2 where
  a : CQ
  b : CQ
  c : CQ
  d : CQ
deriving DecidableEq

def det2 (m : Mat2) : CQ := csub (cmul m.a m.d) (cmul m.b m.c)

def mmul (m n : Mat2) : Mat2 where
  a := cadd (cmul m.a n.a) (cmul m.b n.c)
  b := cadd (cmul m.a n.b) (cmul m.b n.d)
  c := cadd (cmul m.c n.a) (cmul m.d n.c)
  d := cadd (cmul m.c n.b) (cmul m.d n.d)

def msub (m n : Mat2) : Mat2 where
  a := csub m.a n.a
  b := csub m.b n.b
  c := csub m.c n.c
  d := csub m.d n.d

def mneg (m : Mat2) : Mat2 where
  a := cneg m.a
  b := cneg m.b
  c := cneg m.c
  d := cneg m.d

/-- Model of `np.linalg.matrix_power(M, -1)` on a 2×2 complex matrix: raises
`LinAlgError("Singular matrix")` exactly when the matrix is singular,
otherwise inverts it.  No condition-number check of any kind exists. -/
def inv2 (m : Mat2) : Except PyErr Mat2 :=
  if det2 m = czero then .error .linAlgError
  else
    .ok { a := cdiv m.d (det2 m), b := cneg (cdiv m.b (det2 m)),
          c := cneg (cdiv m.c (det2 m)), d := cdiv m.a (det2 m) }

/-- The 4×4 cascade matrix of `switchTop`, partitioned into the blocks of
source lines 146-149. -/
structure Mat4 where
  pff : Mat2
  pfg : Mat2
  pgf : Mat2
  pgg : Mat2
deriving DecidableEq

/-- Model of `switchTop` (source lines 145-157): the Schur-complement-style
recombination `H1 = FF - FG·GG⁻¹·GF`, `H2 = FG·GG⁻¹`, `H3 = -GG⁻¹·GF`,
`H4 = GG⁻¹`.  The source inverts `P_GG` three times with
`np.linalg.matrix_power(·, -1)`; all three calls fail or succeed
together, modelled by one `inv2` bind. -/
def switchTop (P : Mat4) : Except PyErr Mat4 := do
  let gginv ← inv2 P.pgg
  pure { pff := msub P.pff (mmul (mmul P.pfg gginv) P.pgf),
         pfg := mmul P.pfg gginv,
         pgf := mmul (mneg gginv) P.pgf,
         pgg := gginv }

/-! ## ChirpOptimizer: `optimizeParams` (source lines 309-364)

The iteration calls `dummy.simulate()` — the full simulation, whose
numeric outcome depends on the external effective-index database — and is
therefore abstracted as an oracle `simOracle : Device → Device`.  After
the first simulation the loop reads `dummy.performance[0][1]` (line 337),
but the v4 `getPerformance` (lines 708-713) builds `performance` as a dict
with string keys, so the integer lookup raises `KeyError` on the first
iteration of every invocation. -/

/-- A key of the v4 `performance` dict: `getPerformance` only ever
installs string keys. -/
inductive PerfKey
  | str (s : String)
  | int (n : ℕ)
deriving DecidableEq

/-- Python dict lookup: `KeyError` when the key is absent. -/
def dictGet (dict : List (PerfKey × ℚ)) (k : PerfKey) : Except PyErr ℚ :=
  match dict.find? (fun p => p.1 = k) with
  | some p => .ok p.2
  | none => .error .keyError

/-- The `performance` dict built by the v4 `getPerformance`
(source lines 708-713); the values are whatever the simulated spectra
give, supplied by the oracle `vals`. -/
def perfDict (vals : Device → ℕ → ℚ) (d : Device) : List (PerfKey × ℚ) :=
  [(.str "Ref. wvl", vals d 0), (.str "BW", vals d 1),
   (.str "Max ref.", vals d 2), (.str "Avg ref.", vals d 3),
   (.str "Std dev.", vals d 4)]

/-- Model of `optimizeParams` (source lines 309-364).  Lines 311-329 build the
dummy device from the hard-coded regression constants; the `while` loop
(lines 332-359) then runs `dummy.simulate()` and reads
`dummy.performance[0][1]` (line 337), which raises `KeyError` before the
first error comparison can happen. -/
def optimizeParamsM (simOracle : Device → Device) (vals : Device → ℕ → ℚ)
    (self : Device) (target_wvl : ℚ) : Except PyErr (ℚ × ℚ × ℚ) := do
  let dlam_dp : ℚ := 2853181818181853 / 10^15
  let p_0 : ℚ := 6423545454545346 / 10^22
  let dlam_dw : ℚ := 6204545454543569 / 10^16
  let dummyPeriod : ℚ :=
    (rhe ((target_wvl - p_0) / dlam_dp / self.period_chirp_step) : ℚ)
      * self.period_chirp_step
  let dw := round9 ((target_wvl - dlam_dp * dummyPeriod - p_0) / dlam_dw)
  let dummy : Device :=
    { self with
      target_wvl := none
      N := 500
      period := [dummyPeriod]
      w1 := self.w1.map (fun x => x + dw)
      w2 := self.w2.map (fun x => x + dw)
      wvl_range := (target_wvl - 30/10^9, target_wvl + 30/10^9)
      resolution := 50 }
  -- first iteration of the `while run` loop (lines 333-337):
  let dummy1 := simOracle dummy          -- dummy.simulate(bar=False)
  let ref0 ← dictGet (perfDict vals dummy1) (.int 0)  -- performance[0] -> KeyError
  let _ref := ref0 * (1/10^9)
  -- the rest of the loop (lines 338-364) is unreachable: performance[0]
  -- has already raised, so the returned triple below is never produced
  pure (dummyPeriod, dummy.w1.headD 0, dummy.w2.headD 0)

/-! ## CascadeCombiner: device concatenation `__add__`
(source lines 629-661) -/

/-- Model of `__add__` (source lines 629-661).  Lines 634-641 materialize missing
profiles on the operands (the `target_wvl` chirp branch is not taken for
the devices considered; for `period_profile is None` with a target the
source would enter `optimizeChirp`, which fails in `optimizeParamsM`).
Lines 643-648 build the combined device `cdc3` — including
`cdc3.N += cdc2.N` — but line 649 then assigns
`cdc3.l_seg = np.append(cdc1.l_seg, cdc2.l_seg)`: `l_seg` is a read-only
`@property` (source lines 139-141), so every call raises
`AttributeError` (and line 650 would read the never-defined attribute
`cdc2.z_seg`). -/
def addCDC (expFn tanhFn : ℚ → ℚ) (cdc1 cdc2 : Device) : Except PyErr Device :=
  let c1 := if cdc1.apod_profile = none then getApodProfileD expFn tanhFn cdc1 else cdc1
  let c2 := if cdc2.apod_profile = none then getApodProfileD expFn tanhFn cdc2 else cdc2
  let c1 := if c1.period_profile = none ∧ c1.target_wvl = none
            then getChirpProfileNoTargetD c1 else c1
  let c2 := if c2.period_profile = none ∧ c2.target_wvl = none
            then getChirpProfileNoTargetD c2 else c2
  let _cdc3 : Device :=
    { c1 with
      apod_profile := some ((c1.apod_profile.getD []) ++ (c2.apod_profile.getD []))
      period_profile := some ((c1.period_profile.getD []) ++ (c2.period_profile.getD []))
      w1_profile := some ((c1.w1_profile.getD []) ++ (c2.w1_profile.getD []))
      w2_profile := some ((c1.w2_profile.getD []) ++ (c2.w2_profile.getD []))
      N := c1.N + c2.N
      N_seg := c1.N_seg + c2.N_seg }
  -- line 649: cdc3.l_seg = ... — AttributeError: cannot set the attribute
  .error .attributeError

/-! ## PerformanceAnalyzer: `getGroupDelay` (source lines 664-676) -/

/-- numpy `mod` for a positive modulus: `a - b*⌊a/b⌋`. -/
def qmod (a b : ℚ) : ℚ := a - b * ⌊a / b⌋

/-- The per-gap phase correction of `np.unwrap` with the default
discontinuity `π`: fold the gap `d` into `[-π, π)` (mapping `-π` with
`d > 0` to `π`) and correct by the difference, except when `|d| < π`. -/
def phCorrect (piQ d : ℚ) : ℚ :=
  let ddmod0 := qmod (d + piQ) (2 * piQ) - piQ
  let ddmod := if ddmod0 = -piQ ∧ 0 < d then piQ else ddmod0
  if |d| < piQ then 0 else ddmod - d

def unwrapGo (piQ : ℚ) : ℚ → ℚ → List ℚ → List ℚ
  | _, _, [] => []
  | prev, acc, y :: t =>
      let acc2 := acc + phCorrect piQ (y - prev)
      (y + acc2) :: unwrapGo piQ y acc2 t

/-- Model of `np.unwrap` with default parameters: cumulative 2π-corrections of the
successive gaps.  `piQ` stands for the float π. -/
def unwrapQ (piQ : ℚ) : List ℚ → List ℚ
  | [] => []
  | x :: rest => x :: unwrapGo piQ x 0 rest

/-- Model of `getGroupDelay` (source lines 664-676).  When `is_simulated` is
false the body is skipped and Python returns `None`, modelled as
`.ok (d, false)` with the state unchanged.  Otherwise the drop-port
phase is unwrapped, differentiated against angular frequency, and the
last finite-difference value is re-appended — `group_delay[-1]` raises
`IndexError` when the difference array is empty (resolution 1).
`angleFn` stands for `np.angle`. -/
def getGroupDelay (angleFn : CQ → ℚ) (piQ : ℚ) (d : Device) :
    Except PyErr (Device × Bool) :=
  if d.is_simulated then
    match d.E_drop with
    | none => .error .attributeError   -- self.E_drop never assigned
    | some ed =>
      let drop_phase := unwrapQ piQ (ed.map angleFn)
      let wavelength := linspaceQ d.wvl_range.1 d.wvl_range.2 d.resolution
      let frequency := wavelength.map (fun w => 299792458 / w)
      let omega := frequency.map (fun f => 2 * piQ * f)
      let gd := List.zipWith (fun a b => -a / b) (diffQ drop_phase) (diffQ omega)
      match gd.getLast? with
      | none => .error .indexError     -- group_delay[-1] on an empty array
      | some last => .ok ({ d with group_delay := some (gd ++ [last]) }, true)
  else .ok (d, false)

/-! ## Helper lemmas -/

lemma flip2_flip2 (m : List (List ℚ)) : flip2 (flip2 m) = m := by
  simp [flip2, List.map_reverse, List.map_map, Function.comp_def]

lemma getApodProfileD_w1_profile (e t : ℚ → ℚ) (d : Device) :
    (getApodProfileD e t d).w1_profile = d.w1_profile := by
  cases h : d.apod_shape <;> simp [getApodProfileD, h]

lemma getApodProfileD_target_wvl (e t : ℚ → ℚ) (d : Device) :
    (getApodProfileD e t d).target_wvl = d.target_wvl := by
  cases h : d.apod_shape <;> simp [getApodProfileD, h]

lemma getApodProfileD_w1 (e t : ℚ → ℚ) (d : Device) :
    (getApodProfileD e t d).w1 = d.w1 := by
  cases h : d.apod_shape <;> simp [getApodProfileD, h]

lemma getApodProfileD_w_chirp_step (e t : ℚ → ℚ) (d : Device) :
    (getApodProfileD e t d).w_chirp_step = d.w_chirp_step := by
  cases h : d.apod_shape <;> simp [getApodProfileD, h]

lemma getApodProfileD_N_seg (e t : ℚ → ℚ) (d : Device) :
    (getApodProfileD e t d).N_seg = d.N_seg := by
  cases h : d.apod_shape <;> simp [getApodProfileD, h]

lemma linspaceQ_length (a b : ℚ) (n : ℕ) : (linspaceQ a b n).length = n := by
  unfold linspaceQ
  split
  · simp [*]
  · split
    · simp [*]
    · rw [List.length_map, List.length_range]

lemma wProfileList_length (w : List ℚ) (s : ℚ) (n : ℕ) :
    (wProfileList w s n).length = n := by
  simp [wProfileList, linspaceQ_length]

lemma setFirstQ_length (l : List ℚ) (v : ℚ) :
    (setFirstQ l v).length = l.length := by
  cases l <;> simp [setFirstQ]

lemma setLastQ_length : ∀ (l : List ℚ) (v : ℚ), (setLastQ l v).length = l.length
  | [], _ => rfl
  | [_], _ => rfl
  | _ :: y :: t, v => by
      simp only [setLastQ, List.length_cons]
      rw [setLastQ_length (y :: t) v]
      simp

lemma apodGaussianList_length (e : ℚ → ℚ) (a k : ℚ) (n : ℕ) :
    (apodGaussianList e a k n).length = n := by
  unfold apodGaussianList
  split
  · simp
  · rw [setLastQ_length, setFirstQ_length, List.length_map, List.length_map,
      List.length_map, List.length_range]

lemma apodTanhList_length (t : ℚ → ℚ) (k : ℚ) (n : ℕ) :
    (apodTanhList t k n).length = 2 * (n / 2) := by
  unfold apodTanhList
  simp only [List.length_map, List.length_append, List.length_reverse,
    List.length_take, List.length_range]
  omega

lemma periodProfileList_length_bounds (p : List ℚ) (ps : ℚ) (n : ℕ) :
    n ≤ (periodProfileList p ps n).length
    ∧ (periodProfileList p ps n).length ≤ n + 1 := by
  unfold periodProfileList
  simp only [List.length_take, List.length_map, List.length_append,
    List.length_replicate]
  omega

lemma unwrapGo_length (piQ : ℚ) :
    ∀ (l : List ℚ) (prev acc : ℚ), (unwrapGo piQ prev acc l).length = l.length
  | [], _, _ => rfl
  | y :: t, prev, acc => by
      simp only [unwrapGo, List.length_cons]
      rw [unwrapGo_length piQ t]

lemma unwrapQ_length (piQ : ℚ) (l : List ℚ) : (unwrapQ piQ l).length = l.length := by
  cases l with
  | nil => rfl
  | cons x t => simp [unwrapQ, unwrapGo_length]

lemma diffQ_length (l : List ℚ) : (diffQ l).length = l.length - 1 := by
  simp [diffQ]

lemma rhe_intCast (n : ℤ) : rhe (n : ℚ) = n := by
  unfold rhe
  norm_num [Int.floor_intCast]

lemma round15_eq_self (q : ℚ) (n : ℤ) (h : q * 10^15 = n) : round15 q = q := by
  unfold round15
  rw [h, rhe_intCast, ← h]
  field_simp

lemma getLastD_mem : ∀ (l : List ℚ) (d : ℚ), l ≠ [] → l.getLastD d ∈ l
  | [a], d, _ => by simp
  | a :: b :: t, d, _ => by
      rw [List.getLastD_cons]
      exact List.mem_cons_of_mem a (getLastD_mem (b :: t) a (by simp))

lemma mem_arangeQ (s e st x : ℚ) (hx : x ∈ arangeQ s e st) :
    ∃ i : ℕ, x = s + st * i := by
  unfold arangeQ at hx
  obtain ⟨i, _, rfl⟩ := List.mem_map.1 hx
  exact ⟨i, rfl⟩

lemma arangeQ_ne_nil (s e st : ℚ) (hst : 0 < st) (hse : s < e) :
    arangeQ s e st ≠ [] := by
  unfold arangeQ
  intro hnil
  rw [List.map_eq_nil_iff, List.range_eq_nil, Int.toNat_eq_zero] at hnil
  have h1 : (0 : ℚ) < (e - s) / st := div_pos (by linarith) hst
  have h2 : (0 : ℤ) < ⌈(e - s) / st⌉ := Int.ceil_pos.2 h1
  omega

lemma foldr_min_le_init : ∀ (t : List ℚ) (a : ℚ), List.foldr min a t ≤ a
  | [], a => le_refl a
  | x :: t, a => le_trans (min_le_right _ _) (foldr_min_le_init t a)

lemma foldr_min_le_mem :
    ∀ (t : List ℚ) (a x : ℚ), x ∈ t → List.foldr min a t ≤ x
  | y :: t, a, x, hx => by
      rcases List.mem_cons.1 hx with h | h
      · subst h
        exact min_le_left _ _
      · exact le_trans (min_le_right _ _) (foldr_min_le_mem t a x h)

lemma listMinQ_le (l : List ℚ) (x : ℚ) (hx : x ∈ l) : listMinQ l ≤ x := by
  cases l with
  | nil => cases hx
  | cons a t =>
      rcases List.mem_cons.1 hx with h | h
      · subst h
        exact foldr_min_le_init t x
      · exact foldr_min_le_mem t a x h

lemma init_le_foldr_max : ∀ (t : List ℚ) (a : ℚ), a ≤ List.foldr max a t
  | [], a => le_refl a
  | x :: t, a => le_trans (init_le_foldr_max t a) (le_max_right _ _)

lemma mem_le_foldr_max :
    ∀ (t : List ℚ) (a x : ℚ), x ∈ t → x ≤ List.foldr max a t
  | y :: t, a, x, hx => by
      rcases List.mem_cons.1 hx with h | h
      · subst h
        exact le_max_left _ _
      · exact le_trans (mem_le_foldr_max t a x h) (le_max_right _ _)

lemma le_listMaxQ (l : List ℚ) (x : ℚ) (hx : x ∈ l) : x ≤ listMaxQ l := by
  cases l with
  | nil => cases hx
  | cons a t =>
      rcases List.mem_cons.1 hx with h | h
      · subst h
        exact init_le_foldr_max t x
      · exact mem_le_foldr_max t a x h

/-- The `(x - min)/(max - min)` normalization of source line 265 lands in
`[0, 1]` for every array element (the division-by-zero convention of `ℚ`
gives `0` when all elements are equal; numpy would give NaN there, but
every use is then overwritten by the zero-forcing of lines 276-277). -/
lemma normalized_mem_unit (l : List ℚ) (x : ℚ) (hx : x ∈ l) :
    0 ≤ (x - listMinQ l) / (listMaxQ l - listMinQ l)
    ∧ (x - listMinQ l) / (listMaxQ l - listMinQ l) ≤ 1 := by
  have h1 := listMinQ_le l x hx
  have h2 := le_listMaxQ l x hx
  by_cases hd : listMaxQ l - listMinQ l = 0
  · rw [hd, div_zero]
    exact ⟨le_refl 0, zero_le_one⟩
  · have hpos : 0 < listMaxQ l - listMinQ l := by
      rcases lt_or_eq_of_le (by linarith : (0:ℚ) ≤ listMaxQ l - listMinQ l) with h | h
      · exact h
      · exact absurd h.symm hd
    constructor
    · exact div_nonneg (by linarith) (le_of_lt hpos)
    · rw [div_le_one hpos]
      linarith

lemma interpSeg_bounds (lo hi : ℚ) :
    ∀ (l : List (ℚ × ℚ)) (x : ℚ), l ≠ [] →
      (∀ pt ∈ l, lo ≤ pt.2 ∧ pt.2 ≤ hi) →
      lo ≤ interpSeg x l ∧ interpSeg x l ≤ hi
  | [], _, hne, _ => absurd rfl hne
  | [p], x, _, hall => by
      simp only [interpSeg]
      exact hall p (by simp)
  | p :: q :: rest, x, _, hall => by
      simp only [interpSeg]
      split
      · exact hall p (by simp)
      · split
        · rename_i h1 h2
          have hp := hall p (by simp)
          have hq := hall q (by simp)
          have hx1 : p.1 < x := lt_of_not_le h1
          have hpq : p.1 < q.1 := lt_of_lt_of_le hx1 h2
          have ht0 : 0 ≤ (x - p.1) / (q.1 - p.1) :=
            div_nonneg (by linarith) (by linarith)
          have ht1 : (x - p.1) / (q.1 - p.1) ≤ 1 := by
            rw [div_le_one (by linarith)]
            linarith
          have hexpr : p.2 + (q.2 - p.2) * (x - p.1) / (q.1 - p.1)
              = (1 - (x - p.1) / (q.1 - p.1)) * p.2
                + ((x - p.1) / (q.1 - p.1)) * q.2 := by
            rw [mul_div_assoc]
            ring
          rw [hexpr]
          constructor
          · nlinarith [mul_nonneg (by linarith : (0:ℚ) ≤ 1 - (x - p.1) / (q.1 - p.1))
                (by linarith [hp.1] : (0:ℚ) ≤ p.2 - lo),
              mul_nonneg ht0 (by linarith [hq.1] : (0:ℚ) ≤ q.2 - lo)]
          · nlinarith [mul_nonneg (by linarith : (0:ℚ) ≤ 1 - (x - p.1) / (q.1 - p.1))
                (by linarith [hp.2] : (0:ℚ) ≤ hi - p.2),
              mul_nonneg ht0 (by linarith [hq.2] : (0:ℚ) ≤ hi - q.2)]
        · exact interpSeg_bounds lo hi (q :: rest) x (by simp)
            (fun pt hpt => hall pt (List.mem_cons_of_mem p hpt))

lemma mem_setFirstQ (l : List ℚ) (v x : ℚ) (hx : x ∈ setFirstQ l v) :
    x = v ∨ x ∈ l := by
  cases l with
  | nil => cases hx
  | cons a t =>
      rcases List.mem_cons.1 hx with h | h
      · exact Or.inl h
      · exact Or.inr (List.mem_cons_of_mem a h)

lemma mem_setLastQ : ∀ (l : List ℚ) (v x : ℚ), x ∈ setLastQ l v → x = v ∨ x ∈ l
  | [], _, _, hx => by cases hx
  | [a], v, x, hx => by
      simp only [setLastQ] at hx
      rcases List.mem_singleton.1 hx with h
      exact Or.inl h
  | a :: b :: t, v, x, hx => by
      simp only [setLastQ] at hx
      rcases List.mem_cons.1 hx with h | h
      · subst h
        exact Or.inr (by simp)
      · rcases mem_setLastQ (b :: t) v x h with h2 | h2
        · exact Or.inl h2
        · exact Or.inr (List.mem_cons_of_mem a h2)

lemma setLastQ_ne_nil (l : List ℚ) (v : ℚ) (h : l ≠ []) : setLastQ l v ≠ [] := by
  intro h2
  have h3 := setLastQ_length l v
  rw [h2] at h3
  simp at h3
  exact h (List.length_eq_zero.1 h3.symm)

lemma getLast?_cons_ne (a : ℚ) (l : List ℚ) (h : l ≠ []) :
    (a :: l).getLast? = l.getLast? := by
  cases l with
  | nil => exact absurd rfl h
  | cons b t => simp [List.getLast?_cons_cons]

lemma getLast?_setLastQ :
    ∀ (l : List ℚ) (v : ℚ), l ≠ [] → (setLastQ l v).getLast? = some v
  | [], _, h => absurd rfl h
  | [a], v, _ => rfl
  | a :: b :: t, v, _ => by
      simp only [setLastQ]
      rw [getLast?_cons_ne a _ (setLastQ_ne_nil (b :: t) v (by simp))]
      exact getLast?_setLastQ (b :: t) v (by simp)

/-- The zero-forcing of source lines 276-277 pins the first and last
samples of any nonempty profile to exactly 0. -/
lemma ends_zero (L : List ℚ) (h : L ≠ []) :
    (setLastQ (setFirstQ L 0) 0).head? = some 0
    ∧ (setLastQ (setFirstQ L 0) 0).getLast? = some 0 := by
  constructor
  · cases L with
    | nil => exact absurd rfl h
    | cons a t =>
        cases t with
        | nil => rfl
        | cons b t2 => rfl
  · apply getLast?_setLastQ
    cases L with
    | nil => exact absurd rfl h
    | cons a t => simp [setFirstQ]

lemma optionMap_flip2_flip2 (o : Option (List (List ℚ))) :
    (o.map flip2).map flip2 = o := by
  cases o <;> simp [flip2_flip2]

lemma optionMap_reverse_reverse (o : Option (List ℚ)) :
    (o.map List.reverse).map List.reverse = o := by
  cases o <;> simp

/-! ## Claim theorems -/

/-- C9: for every device state with materialized period and
propagation-constant profiles, applying `flipProfiles` twice restores the
period profile and both propagation-constant profiles (and every other
field) to exactly their original values: profile reversal is an
involution. -/
theorem flipProfiles_involution (d : Device) (b1 b2 : List (List ℚ)) (pp : List ℚ)
    (h1 : d.beta1_profile = some b1) (h2 : d.beta2_profile = some b2)
    (h3 : d.period_profile = some pp) :
    flipProfiles (flipProfiles d) = d := by
  cases d
  simp only [flipProfiles]
  congr 1 <;>
    first
      | exact optionMap_flip2_flip2 _
      | exact optionMap_reverse_reverse _

/-- C9 witness: the involution at a concrete device state with
materialized profiles. -/
theorem flipProfiles_involution_witness :
    flipProfiles (flipProfiles
      { defaultDevice with
        beta1_profile := some [[1, 2], [3, 4]]
        beta2_profile := some [[5, 6]]
        period_profile := some [7, 8, 9] }) =
      { defaultDevice with
        beta1_profile := some [[1, 2], [3, 4]]
        beta2_profile := some [[5, 6]]
        period_profile := some [7, 8, 9] } :=
  flipProfiles_involution _ [[1, 2], [3, 4]] [[5, 6]] [7, 8, 9] rfl rfl rfl

/-- C5: device concatenation (`__add__`, source lines 629-661) never
returns the combined device: after materializing the profiles of both operands
and building `cdc3` (including `cdc3.N += cdc2.N`), line 649 assigns to
the read-only property `l_seg`, so every invocation raises
`AttributeError` (line 650 would additionally read the never-defined
attribute `z_seg`).  Evaluated here at the failing input: two
default-constructed devices. -/
theorem add_raises_attribute_error :
    addCDC (fun q => q) (fun q => q) defaultDevice defaultDevice =
      .error .attributeError := rfl

/-- C4 counterexample: at the concrete target 1560 nm (with the
simulation oracle and performance values irrelevant, here trivial), the
chirp optimizer neither converges nor raises a non-convergence
condition: it raises `KeyError` on its first iteration, from the integer
lookup `performance[0]` into the string-keyed dict. -/
theorem optimizeParams_keyerror_cex :
    optimizeParamsM (fun d => d) (fun _ _ => 0) defaultDevice (1560/10^9) =
      .error .keyError := rfl

/-- C4 (amended): for every simulation oracle, every performance-value
oracle, every device and every target wavelength — reachable or not —
`optimizeParams` terminates on its first iteration by raising `KeyError`
(line 337 reads `performance[0]` from the string-keyed `performance`
dict of the v4 `getPerformance`); it never converges within a tolerance,
never raises an `OptimizationNonConvergence` condition, and never
returns parameters. -/
theorem optimizeParams_always_keyerror
    (simOracle : Device → Device) (vals : Device → ℕ → ℚ)
    (self : Device) (target_wvl : ℚ) :
    optimizeParamsM simOracle vals self target_wvl = .error .keyError := rfl

/-- C3 (amended): `switchTop` propagates the generic numpy
`LinAlgError` exactly when the back-back block is exactly singular
(zero determinant); for every nonsingular back-back block — however
small its determinant, i.e. however ill-conditioned — it inverts the
block and returns a result with no error signal of any kind. -/
theorem switchTop_error_iff_singular (P : Mat4) :
    (det2 P.pgg = czero → switchTop P = .error .linAlgError)
    ∧ (det2 P.pgg ≠ czero → ∃ H, switchTop P = .ok H) := by
  constructor
  · intro h
    simp [switchTop, inv2, h]
  · intro h
    unfold switchTop inv2
    rw [if_neg h]
    exact ⟨_, rfl⟩

/-- C3 witness: at a concrete matrix whose back-back block is the
identity, `switchTop` succeeds. -/
theorem switchTop_witness :
    ∃ H, switchTop
      { pff := ⟨(1,0),(0,0),(0,0),(1,0)⟩, pfg := ⟨(0,0),(0,0),(0,0),(0,0)⟩,
        pgf := ⟨(0,0),(0,0),(0,0),(0,0)⟩, pgg := ⟨(1,0),(0,0),(0,0),(1,0)⟩ } =
      .ok H :=
  (switchTop_error_iff_singular _).2 (by with_unfolding_all decide)

/-- C3 counterexample: a transfer matrix whose back-back block
`diag(1, 10⁻³⁰)` is severely ill-conditioned (condition number 10³⁰) but
nonsingular: `switchTop` does not fail with any singularity condition —
it silently returns a result, refuting the claim that severely
ill-conditioned blocks are surfaced as a `NumericalSingularity`. -/
theorem switchTop_illconditioned_cex :
    switchTop
      { pff := ⟨(1,0),(0,0),(0,0),(1,0)⟩, pfg := ⟨(0,0),(0,0),(0,0),(0,0)⟩,
        pgf := ⟨(0,0),(0,0),(0,0),(0,0)⟩,
        pgg := ⟨(1,0),(0,0),(0,0),(1/10^30,0)⟩ } =
      .ok { pff := ⟨(1,0),(0,0),(0,0),(1,0)⟩, pfg := ⟨(0,0),(0,0),(0,0),(0,0)⟩,
            pgf := ⟨(0,0),(0,0),(0,0),(0,0)⟩,
            pgg := ⟨(1,0),(0,0),(0,0),(10^30,0)⟩ } := by with_unfolding_all rfl

/-- C2 (amended): `simulate` performs no configuration validation at all:
for every device whose wavelength range is non-increasing or whose
resolution is below 2 (with no chirp target and no cached chirp profile),
the profile phase of `simulate` completes normally — no
`ConfigurationError` or any other error is raised — and builds a
full-length width profile from the invalid configuration. -/
theorem no_config_validation (expFn tanhFn : ℚ → ℚ) (d : Device)
    (hbad : d.wvl_range.2 ≤ d.wvl_range.1 ∨ d.resolution < 2)
    (ht : d.target_wvl = none) (hw : d.w1_profile = none) :
    (simulateProfileStep expFn tanhFn d).map (fun d2 => d2.w1_profile)
      = some (some (wProfileList d.w1 d.w_chirp_step d.N_seg))
    ∧ (wProfileList d.w1 d.w_chirp_step d.N_seg).length = d.N_seg := by
  refine ⟨?_, wProfileList_length _ _ _⟩
  by_cases hap : d.apod_profile = none
  · simp [simulateProfileStep, hap, getApodProfileD_w1_profile, hw,
      getApodProfileD_target_wvl, ht, getChirpProfileNoTargetD,
      getApodProfileD_w1, getApodProfileD_w_chirp_step, getApodProfileD_N_seg]
  · simp [simulateProfileStep, hap, hw, ht, getChirpProfileNoTargetD]

/-- C2 witness: a concrete device with a decreasing wavelength range (and
resolution 1) sails through the profile phase of `simulate`. -/
theorem no_config_validation_witness :
    (simulateProfileStep (fun q => q) (fun q => q)
        { defaultDevice with wvl_range := (1580/10^9, 1530/10^9), resolution := 1,
                             N_seg := 5 }).map (fun d2 => d2.w1_profile)
      = some (some (wProfileList [56/10^8] (1/10^9) 5))
    ∧ (wProfileList [56/10^8] (1/10^9) 5).length = 5 :=
  no_config_validation (fun q => q) (fun q => q) _
    (Or.inl (by with_unfolding_all decide)) rfl rfl

/-- C2 counterexample: at the concrete invalid configuration with
decreasing wavelength range `[1580 nm, 1530 nm]`, the claim that a
`ConfigurationError` is raised before simulation work starts is false:
the chirp profile is built and holds 5 entries. -/
theorem no_config_validation_cex :
    ((simulateProfileStep (fun q => q) (fun q => q)
        { defaultDevice with wvl_range := (1580/10^9, 1530/10^9),
                             N_seg := 5 }).getD
      defaultDevice).w1_profile
      = some [56/10^8, 56/10^8, 56/10^8, 56/10^8, 56/10^8] := by
  with_unfolding_all rfl

/-- C8 (amended): the profile phase of `simulate` reuses any profiles
already present: when `apod_profile` is not `None` it is returned
unchanged (even if `kappa` or any other configuration field has changed
since it was computed), and likewise the chirp profiles are skipped
whenever `w1_profile` is present; profiles are recomputed only when the
corresponding attribute is `None`. -/
theorem profiles_cached_not_invalidated (expFn tanhFn : ℚ → ℚ) (d : Device)
    (p : List ℚ) (hp : d.apod_profile = some p) :
    ∀ d2, simulateProfileStep expFn tanhFn d = some d2 →
      d2.apod_profile = some p := by
  intro d2 h2
  have hd1 : (if d.apod_profile = none then getApodProfileD expFn tanhFn d else d) = d := by
    rw [if_neg (by simp [hp])]
  unfold simulateProfileStep at h2
  rw [hd1] at h2
  by_cases hw : d.w1_profile = none
  · rw [if_pos hw] at h2
    cases ht : d.target_wvl with
    | none =>
        rw [ht] at h2
        simp only [Option.some.injEq] at h2
        rw [← h2]
        simpa [getChirpProfileNoTargetD] using hp
    | some t0 =>
        rw [ht] at h2
        cases h2
  · rw [if_neg hw] at h2
    simp only [Option.some.injEq] at h2
    rw [← h2]
    exact hp

/-- C8 witness: a device carrying a stale apodization profile `[1,2,3]`
(computed before `kappa` was changed to 999) keeps it across the profile
phase of `simulate`. -/
theorem profiles_cached_witness :
    (getChirpProfileNoTargetD
        { defaultDevice with apod_profile := some [1, 2, 3], kappa := 999 }).apod_profile
      = some [1, 2, 3] :=
  profiles_cached_not_invalidated (fun q => q) (fun q => q)
    { defaultDevice with apod_profile := some [1, 2, 3], kappa := 999 }
    [1, 2, 3] rfl _ (by with_unfolding_all rfl)

/-- C8 counterexample: run the profile phase once (uniform apodization,
`a = 0`, `kappa = 48000`, 4 segments), then change `kappa` to 1 and run
it again: the apodization profile is *not* recomputed — it stays at the
stale `[48000, 48000, 48000, 48000]`, although a fresh computation at
the current configuration would give `[1, 1, 1, 1]`. -/
theorem profiles_stale_after_config_change_cex :
    ((simulateProfileStep (fun q => q) (fun q => q)
        { ((simulateProfileStep (fun q => q) (fun q => q)
              { defaultDevice with a := 0, N_seg := 4 }).getD defaultDevice) with
          kappa := 1 }).getD defaultDevice).apod_profile
      = some (List.replicate 4 48000)
    ∧ apodGaussianList (fun q => q) 0 1 4 = List.replicate 4 1
    ∧ (48000 : ℚ) ≠ 1 := by
  refine ⟨?_, ?_, ?_⟩
  · with_unfolding_all rfl
  · with_unfolding_all rfl
  · intro h
    exact absurd (congrArg Rat.num h) (by with_unfolding_all decide)

/-- C10 (amended): when `propagate` has not completed
(`is_simulated = false`), `getGroupDelay` returns `None` and leaves the
device state untouched; when it has completed and the wavelength
resolution is at least 2, it stores a `group_delay` sequence whose
length equals the resolution (the last finite difference is duplicated
as padding).  At resolution 1 the padding step raises `IndexError`
instead (see the counterexample). -/
theorem getGroupDelay_behavior (angleFn : CQ → ℚ) (piQ : ℚ) (d : Device)
    (ed : List CQ) :
    (d.is_simulated = false → getGroupDelay angleFn piQ d = .ok (d, false))
    ∧ (d.is_simulated = true → d.E_drop = some ed →
       ed.length = d.resolution → 2 ≤ d.resolution →
       ∃ gd, getGroupDelay angleFn piQ d
           = .ok ({ d with group_delay := some gd }, true)
         ∧ gd.length = d.resolution) := by
  constructor
  · intro h
    simp [getGroupDelay, h]
  · intro hsim hed hlen hres
    have hgd : (List.zipWith (fun a b => -a / b)
        (diffQ (unwrapQ piQ (List.map angleFn ed)))
        (diffQ (List.map (fun f => 2 * piQ * f)
          (List.map (fun w => 299792458 / w)
            (linspaceQ d.wvl_range.1 d.wvl_range.2 d.resolution))))).length
        = d.resolution - 1 := by
      rw [List.length_zipWith, diffQ_length, diffQ_length, unwrapQ_length,
        List.length_map, hlen, List.length_map, List.length_map, linspaceQ_length,
        Nat.min_self]
    have hne : (List.zipWith (fun a b => -a / b)
        (diffQ (unwrapQ piQ (List.map angleFn ed)))
        (diffQ (List.map (fun f => 2 * piQ * f)
          (List.map (fun w => 299792458 / w)
            (linspaceQ d.wvl_range.1 d.wvl_range.2 d.resolution))))) ≠ [] := by
      intro hnil
      rw [hnil] at hgd
      simp at hgd
      omega
    obtain ⟨last, hlast⟩ := Option.isSome_iff_exists.1 (List.getLast?_isSome.2 hne)
    refine ⟨(List.zipWith (fun a b => -a / b)
        (diffQ (unwrapQ piQ (List.map angleFn ed)))
        (diffQ (List.map (fun f => 2 * piQ * f)
          (List.map (fun w => 299792458 / w)
            (linspaceQ d.wvl_range.1 d.wvl_range.2 d.resolution))))) ++ [last],
      ?_, ?_⟩
    · simp only [getGroupDelay, hsim, hed, if_true]
      rw [hlast]
    · rw [List.length_append, hgd]
      simp
      omega

/-- C10 witness: on a concrete simulated device with resolution 2,
`getGroupDelay` returns the device with a group delay of length 2. -/
theorem getGroupDelay_witness :
    ∃ gd, getGroupDelay (fun _ => 0) 3
        { defaultDevice with is_simulated := true,
                             E_drop := some [(1, 0), (0, 1)], resolution := 2 }
        = .ok ({ { defaultDevice with is_simulated := true,
                                      E_drop := some [(1, 0), (0, 1)],
                                      resolution := 2 } with
                 group_delay := some gd }, true)
      ∧ gd.length = 2 :=
  (getGroupDelay_behavior (fun _ => 0) 3 _ [(1, 0), (0, 1)]).2
    rfl rfl (by with_unfolding_all decide) (by norm_num)

/-- C10 counterexample: on a device for which `propagate` completed with
resolution 1, `getGroupDelay` does not produce a length-1 group delay:
`np.diff` yields empty arrays and `group_delay[-1]` raises `IndexError`. -/
theorem getGroupDelay_res1_cex :
    getGroupDelay (fun _ => 0) 3
        { defaultDevice with is_simulated := true,
                             E_drop := some [(1, 0)], resolution := 1 }
      = .error .indexError := by
  with_unfolding_all rfl

/-- C1 (amended): for every valid device configuration (`N_seg ≥ 1`,
strictly increasing wavelength range, resolution ≥ 2) whose period
endpoints are nondecreasing and whose period step is positive — outside
that subdomain the valid-period grid of `getChirpProfile` is empty and
line 439 raises `ZeroDivisionError` instead of producing any profile —
the gaussian apodization profile and both width profiles have length
exactly `N_seg`; the tanh apodization profile has length `2·⌊N_seg/2⌋`
(one short of `N_seg` for odd `N_seg`); and the period profile has
length between `N_seg` and `N_seg + 1` — the `[:N_seg+1]` truncation of
`getChirpProfile` leaves `N_seg + 1` entries whenever the rounded
repetition of the valid-period grid overshoots `N_seg`. -/
theorem profile_lengths (expFn tanhFn : ℚ → ℚ) (d : Device)
    (hn : 1 ≤ d.N_seg) (hwvl : d.wvl_range.1 < d.wvl_range.2)
    (hres : 2 ≤ d.resolution) (hps : 0 < d.period_chirp_step)
    (hper : d.period.headD 0 ≤ d.period.getLastD 0) :
    (apodGaussianList expFn d.a d.kappa d.N_seg).length = d.N_seg
    ∧ (apodTanhList tanhFn d.kappa d.N_seg).length = 2 * (d.N_seg / 2)
    ∧ (wProfileList d.w1 d.w_chirp_step d.N_seg).length = d.N_seg
    ∧ (wProfileList d.w2 d.w_chirp_step d.N_seg).length = d.N_seg
    ∧ d.N_seg ≤ (periodProfileList d.period d.period_chirp_step d.N_seg).length
    ∧ (periodProfileList d.period d.period_chirp_step d.N_seg).length ≤ d.N_seg + 1 :=
  ⟨apodGaussianList_length expFn d.a d.kappa d.N_seg,
   apodTanhList_length tanhFn d.kappa d.N_seg,
   wProfileList_length d.w1 d.w_chirp_step d.N_seg,
   wProfileList_length d.w2 d.w_chirp_step d.N_seg,
   (periodProfileList_length_bounds d.period d.period_chirp_step d.N_seg).1,
   (periodProfileList_length_bounds d.period d.period_chirp_step d.N_seg).2⟩

/-- C1 witness: the profile lengths at the default configuration. -/
theorem profile_lengths_witness :
    (apodGaussianList (fun q => q) 12 48000 50).length = 50
    ∧ (apodTanhList (fun q => q) 48000 50).length = 2 * (50 / 2)
    ∧ (wProfileList [56/10^8] (1/10^9) 50).length = 50
    ∧ (wProfileList [44/10^8] (1/10^9) 50).length = 50
    ∧ 50 ≤ (periodProfileList [322/10^9] (2/10^9) 50).length
    ∧ (periodProfileList [322/10^9] (2/10^9) 50).length ≤ 50 + 1 :=
  profile_lengths (fun q => q) (fun q => q) defaultDevice
    (by with_unfolding_all decide) (by with_unfolding_all decide)
    (by with_unfolding_all decide) (by with_unfolding_all decide)
    (by with_unfolding_all decide)

/-- C1 counterexample: a valid configuration (default wavelength range
and resolution, `N_seg = 2`, period chirped from 320 nm to 324 nm with
the default 2 nm step) whose period profile has 3 entries, not
`N_seg = 2`: the repetition of the 3-entry valid-period grid overshoots
and the `[:N_seg+1]` truncation keeps `N_seg + 1` entries. -/
theorem period_profile_length_cex :
    ((getChirpProfileNoTargetD
        { defaultDevice with N_seg := 2,
                             period := [320/10^9, 324/10^9] }).period_profile.getD
      []).length ≠ 2 := by
  with_unfolding_all decide

/-- C6 (amended): width chirp values are exact integer multiples of
`w_chirp_step` whenever `w_chirp_step` is itself an integer multiple of
the `10⁻¹⁵` quantum of the final `np.round(·, 15)` (true of the 1 nm
default); period chirp values lie on the grid
`np.round(period[0] + i·period_chirp_step, 15)` anchored at `period[0]`
— they are multiples of `period_chirp_step` only when `period[0]` is
(see the counterexample). -/
theorem chirp_profiles_step_grid (w p : List ℚ) (wstep pstep : ℚ) (nseg : ℕ)
    (m : ℤ) (hm : wstep * 10^15 = m)
    (hps : 0 < pstep) (hple : p.headD 0 ≤ p.getLastD 0) :
    (∀ x ∈ wProfileList w wstep nseg, ∃ k : ℤ, x = k * wstep)
    ∧ (∀ y ∈ periodProfileList p pstep nseg,
        ∃ i : ℕ, y = round15 (p.headD 0 + pstep * i)) := by
  constructor
  · intro x hx
    unfold wProfileList at hx
    obtain ⟨y, hy, rfl⟩ := List.mem_map.1 hx
    obtain ⟨z, hz, rfl⟩ := List.mem_map.1 hy
    refine ⟨rhe (z / wstep), ?_⟩
    refine round15_eq_self _ (rhe (z / wstep) * m) ?_
    rw [mul_assoc, hm]
    push_cast
    ring
  · intro y hy
    unfold periodProfileList at hy
    have hy2 := List.mem_of_mem_take hy
    obtain ⟨z, hz, rfl⟩ := List.mem_map.1 hy2
    have hzv : z ∈ arangeQ (p.headD 0) (p.getLastD 0 + pstep / 100) pstep := by
      rcases List.mem_append.1 hz with h1 | h1
      · obtain ⟨l, hl, hzl⟩ := List.mem_flatten.1 h1
        obtain ⟨v, hv, rfl⟩ := List.mem_map.1 hl
        rw [List.eq_of_mem_replicate hzl]
        exact hv
      · rw [List.eq_of_mem_replicate h1]
        exact getLastD_mem _ _
          (arangeQ_ne_nil _ _ _ hps (by linarith))
    obtain ⟨i, rfl⟩ := mem_arangeQ _ _ _ _ hzv
    exact ⟨i, rfl⟩

/-- C6 witness: at the default steps (1 nm width step, which is an
integer multiple of the rounding quantum, and 2 nm period step) and the
default scalar width/period, the profile values lie on the asserted
grids. -/
theorem chirp_profiles_step_grid_witness :
    (∀ x ∈ wProfileList [56/10^8] (1/10^9) 3, ∃ k : ℤ, x = k * (1/10^9))
    ∧ (∀ y ∈ periodProfileList [322/10^9] (2/10^9) 3,
        ∃ i : ℕ, y = round15 (List.headD [(322:ℚ)/10^9] 0 + (2/10^9) * i)) :=
  chirp_profiles_step_grid [56/10^8] [322/10^9] (1/10^9) (2/10^9) 3 (10^6)
    (by norm_num) (by norm_num) (by simp)

/-- C6 counterexample: with the (unchirped) period 321 nm and the default
2 nm period step, the first period-profile value is 321 nm — not an
integer multiple of `period_chirp_step`, refuting the claim that every
period-profile value is an exact multiple of the step after rounding. -/
theorem period_not_step_multiple_cex :
    ¬ ∃ k : ℤ, (periodProfileList [321/10^9] (2/10^9) 2).headD 0
        = (k : ℚ) * (2/10^9) := by
  have hhead : (periodProfileList [321/10^9] (2/10^9) 2).headD 0 = 321/10^9 := by
    with_unfolding_all rfl
  rw [hhead]
  rintro ⟨k, hk⟩
  have h2 : (321 : ℚ) = (k : ℚ) * 2 := by
    field_simp at hk
    linarith
  have h3 : (321 : ℤ) = k * 2 := by exact_mod_cast h2
  omega

/-- C7: gaussian apodization.  For every valid configuration
(`N_seg ≥ 1`, `κ ≥ 0`) and every injective window function standing for
`np.exp` (injectivity keeps the normalization denominator nonzero
whenever the window has at least two distinct samples, matching numpy):
for `a ≠ 0` the first and last samples are exactly 0; all samples lie in
`[0, κ]`; and `a = 0` yields the uniform sequence of value `κ` with no
windowing and no zero-forcing. -/
theorem gaussian_apod_spec (expFn : ℚ → ℚ) (hinj : Function.Injective expFn)
    (a kappa : ℚ) (nseg : ℕ) (hk : 0 ≤ kappa) (hn : 1 ≤ nseg) :
    (a ≠ 0 → (apodGaussianList expFn a kappa nseg).head? = some 0
           ∧ (apodGaussianList expFn a kappa nseg).getLast? = some 0)
    ∧ (∀ x ∈ apodGaussianList expFn a kappa nseg, 0 ≤ x ∧ x ≤ kappa)
    ∧ (a = 0 → apodGaussianList expFn a kappa nseg = List.replicate nseg kappa) := by
  refine ⟨?_, ?_, ?_⟩
  · intro ha
    unfold apodGaussianList
    rw [if_neg ha]
    apply ends_zero
    intro hnil
    have hlen := congrArg List.length hnil
    simp only [List.length_map, List.length_range, List.length_nil] at hlen
    omega
  · intro x hx
    by_cases ha : a = 0
    · rw [ha] at hx
      unfold apodGaussianList at hx
      rw [if_pos rfl] at hx
      rw [List.eq_of_mem_replicate hx]
      exact ⟨hk, le_refl kappa⟩
    · unfold apodGaussianList at hx
      rw [if_neg ha] at hx
      rcases mem_setLastQ _ _ _ hx with h0 | hx2
      · rw [h0]
        exact ⟨le_refl 0, hk⟩
      · rcases mem_setFirstQ _ _ _ hx2 with h0 | hx3
        · rw [h0]
          exact ⟨le_refl 0, hk⟩
        · obtain ⟨t, ht, rfl⟩ := List.mem_map.1 hx3
          obtain ⟨q0, hq0, rfl⟩ := List.mem_map.1 ht
          have hbounds : 0 ≤ interpSeg q0
                ((linspaceQ 0 nseg nseg).zip
                  (((List.range nseg).map (fun (i : ℕ) => (i : ℚ) + 1/2)).map
                      (fun n => expFn (-a * (n - (1/2) * nseg)^2 / nseg^2)) |>.map
                    (fun x =>
                      (x - listMinQ (((List.range nseg).map
                          (fun (i : ℕ) => (i : ℚ) + 1/2)).map
                            (fun n => expFn (-a * (n - (1/2) * nseg)^2 / nseg^2))))
                        / (listMaxQ (((List.range nseg).map
                            (fun (i : ℕ) => (i : ℚ) + 1/2)).map
                              (fun n => expFn (-a * (n - (1/2) * nseg)^2 / nseg^2)))
                          - listMinQ (((List.range nseg).map
                              (fun (i : ℕ) => (i : ℚ) + 1/2)).map
                                (fun n => expFn (-a * (n - (1/2) * nseg)^2 / nseg^2)))))))
              ∧ interpSeg q0 ((linspaceQ 0 nseg nseg).zip
                  (((List.range nseg).map (fun (i : ℕ) => (i : ℚ) + 1/2)).map
                      (fun n => expFn (-a * (n - (1/2) * nseg)^2 / nseg^2)) |>.map
                    (fun x =>
                      (x - listMinQ (((List.range nseg).map
                          (fun (i : ℕ) => (i : ℚ) + 1/2)).map
                            (fun n => expFn (-a * (n - (1/2) * nseg)^2 / nseg^2))))
                        / (listMaxQ (((List.range nseg).map
                            (fun (i : ℕ) => (i : ℚ) + 1/2)).map
                              (fun n => expFn (-a * (n - (1/2) * nseg)^2 / nseg^2)))
                          - listMinQ (((List.range nseg).map
                              (fun (i : ℕ) => (i : ℚ) + 1/2)).map
                                (fun n => expFn (-a * (n - (1/2) * nseg)^2 / nseg^2))))))) ≤ 1 := by
            apply interpSeg_bounds
            · intro hnil
              have hlen := congrArg List.length hnil
              simp only [List.length_zip, linspaceQ_length, List.length_map,
                List.length_range, List.length_nil] at hlen
              omega
            · intro pt hpt
              have hsnd := (List.of_mem_zip hpt).2
              obtain ⟨y, hy, hyeq⟩ := List.mem_map.1 hsnd
              rw [← hyeq]
              exact normalized_mem_unit _ y hy
          constructor
          · have := hbounds.1
            nlinarith [this]
          · have h1 := hbounds.1
            have h2 := hbounds.2
            nlinarith [h1, h2]
  · intro ha
    unfold apodGaussianList
    rw [if_pos ha]

/-- C7 witness: the gaussian apodization properties at a concrete valid
configuration (`a = 12`, `κ = 48000`, 5 segments) with the identity as
the injective window function. -/
theorem gaussian_apod_spec_witness :
    ((12 : ℚ) ≠ 0 → (apodGaussianList (fun q => q) 12 48000 5).head? = some 0
           ∧ (apodGaussianList (fun q => q) 12 48000 5).getLast? = some 0)
    ∧ (∀ x ∈ apodGaussianList (fun q => q) 12 48000 5, 0 ≤ x ∧ x ≤ 48000)
    ∧ ((12 : ℚ) = 0 → apodGaussianList (fun q => q) 12 48000 5
        = List.replicate 5 48000) :=
  gaussian_apod_spec (fun q => q) (fun _ _ h => h) 12 48000 5
    (by norm_num) (by norm_num)


end ContraDC
